import Mathlib

set_option maxHeartbeats 1000000
set_option maxRecDepth 8000

/-! Verification of the WeatherAgent frontend (src/src/app/page.tsx).

The file shallowly embeds the page's pure logic: the JS string helpers it
relies on, the timezone time arithmetic (the ambient clock and the Intl
formatter are abstracted as an explicit now-string parameter, since the
real functions read the wall clock), the city-list sanitizer, the draft
form-state operations, and the API route handler (the submission proxy),
including a small JSON value model for the proxy's parse/serialize steps.
-/

/-! Section: JS string helpers -/

/-- Whitespace test used to model JS String.prototype.trim (restricted to
the ASCII whitespace characters that can occur in this application's data). -/
def wsChar (c : Char) : Bool :=
  c == ' ' || c == '\t' || c == '\n' || c == '\r'

/-- Character-list model of JS String.prototype.trim: drop whitespace from
both ends. -/
def trimChars (l : List Char) : List Char :=
  ((l.dropWhile wsChar).reverse.dropWhile wsChar).reverse

/-- Model of JS String.prototype.trim. -/
def jsTrim (s : String) : String :=
  ⟨trimChars s.data⟩

/-- Model of JS String.prototype.toLowerCase (per-character lowering). -/
def jsLower (s : String) : String :=
  ⟨s.data.map Char.toLower⟩

/-- Model of JS String.prototype.slice(0, 5): the first five characters. -/
def jsSlice5 (s : String) : String :=
  ⟨s.data.take 5⟩

/-! Section: clampCities (page.tsx lines 33-45) -/

/-- Loop of clampCities from page.tsx: walk the entries keeping a set of
lowercase keys already seen; trim each entry, skip the ones that became
empty and the ones whose lowercase form was already seen. -/
def clampLoop (seen : List String) : List String → List String
  | [] => []
  | raw :: rest =>
    let v := jsTrim raw
    if v = "" then clampLoop seen rest
    else if jsLower v ∈ seen then clampLoop seen rest
    else v :: clampLoop (jsLower v :: seen) rest

/-- clampCities from page.tsx: sanitize through the seen-set loop, then cap
the result at 10 entries (out.slice(0, 10)). -/
def clampCities (arr : List String) : List String :=
  (clampLoop [] arr).take 10

/-- Case-insensitive first-occurrence deduplication as a standalone pass.
Written from the claim's wording, to be compared with the fused loop the
source uses. -/
def dedupLoop (seen : List String) : List String → List String
  | [] => []
  | v :: rest =>
    if jsLower v ∈ seen then dedupLoop seen rest
    else v :: dedupLoop (jsLower v :: seen) rest

/-- Claim-level description of clampCities: trim every entry, drop the
entries that became empty, drop case-insensitive duplicates keeping the
first occurrence, then truncate to the first 10 survivors. -/
def clampCitiesSpec (arr : List String) : List String :=
  (dedupLoop [] ((arr.map jsTrim).filter (fun v => v != ""))).take 10

theorem clampLoop_eq_dedupLoop (arr : List String) : ∀ seen,
    clampLoop seen arr = dedupLoop seen ((arr.map jsTrim).filter (fun v => v != "")) := by
  induction arr with
  | nil => intro seen; rfl
  | cons raw rest ih =>
    intro seen
    simp only [clampLoop, List.map_cons, List.filter_cons]
    by_cases h : jsTrim raw = ""
    · simp [h, ih]
    · have hne : (jsTrim raw != "") = true := by simp [h]
      simp only [if_neg h, hne, if_true, dedupLoop]
      by_cases hm : jsLower (jsTrim raw) ∈ seen
      · simp [hm, ih]
      · simp [hm, ih]

/-- C3: clampCities maps any list of strings to the list obtained by
trimming each entry, dropping entries that become empty, dropping entries
whose lowercase form was already seen (keeping the first occurrence), and
truncating to the first 10 survivors; the documented example reduces to
["London", "Paris"]. -/
theorem C3_clampCities_matches_description :
    (∀ arr, clampCities arr = clampCitiesSpec arr) ∧
    clampCities ["London", " london ", "", "Paris", "PARIS", "London"] = ["London", "Paris"] := by
  constructor
  · intro arr
    unfold clampCities clampCitiesSpec
    rw [clampLoop_eq_dedupLoop]
  · decide

/-! Section: Time arithmetic (page.tsx lines 51-124)

nowHHMMInTimeZone reads the ambient clock and formats it with Intl for the
given IANA zone; neither is translatable, so every function below takes the
string nowHHMMInTimeZone would have produced as an explicit nowStr
parameter, universally quantified in the theorems. -/

/-- Numeric value of a decimal digit character (Number of a digit in JS). -/
def digitVal (c : Char) : Nat := c.toNat - 48

/-- parseHHMM from page.tsx: trim, match the regex (dd):(dd) anchored at
both ends, then range-check hours and minutes. -/
def parseHHMM (s : String) : Option (Nat × Nat) :=
  match (jsTrim s).data with
  | [a, b, c, d, e] =>
    if a.isDigit && b.isDigit && c == ':' && d.isDigit && e.isDigit then
      let hh := digitVal a * 10 + digitVal b
      let mm := digitVal d * 10 + digitVal e
      if 23 < hh || 59 < mm then none else some (hh, mm)
    else none
  | _ => none

/-- minutesOfDay from page.tsx. -/
def minutesOfDay (hh mm : Nat) : Nat := hh * 60 + mm

/-- hhmmToMinutes from page.tsx. -/
def hhmmToMinutes (s : String) : Option Nat :=
  (parseHHMM s).map (fun p => minutesOfDay p.1 p.2)

/-- Model of JS String(n).padStart(2, "0"). -/
def pad2s (s : String) : String :=
  if s.length < 2 then "0" ++ s else s

/-- addMinutesHHMMInTimeZone from page.tsx, with the zone's current time
abstracted as nowStr. The page only ever calls it with the positive
constant MIN_AHEAD_MINUTES = 2, so the delta is a Nat and the source's
((total % 1440) + 1440) % 1440 normalization is kept verbatim (for
non-negative sums the JS remainder agrees with Nat.mod). -/
def addMinutesHHMMInTimeZone (nowStr : String) (minutesToAdd : Nat) : String :=
  match parseHHMM nowStr with
  | none => nowStr
  | some p =>
    let total := (((minutesOfDay p.1 p.2 + minutesToAdd) % 1440) + 1440) % 1440
    pad2s (toString (total / 60)) ++ ":" ++ pad2s (toString (total % 60))

/-- minutesUntilSend from page.tsx with the zone's current time abstracted
as nowStr; both branches of the source produce non-negative JS numbers, so
the result is a Nat computed branch-for-branch as in the source. -/
def minutesUntilSend (nowStr preferredHHMM : String) : Option Nat :=
  match parseHHMM nowStr, parseHHMM preferredHHMM with
  | some nowP, some prefP =>
    let nowMin := minutesOfDay nowP.1 nowP.2
    let prefMin := minutesOfDay prefP.1 prefP.2
    if nowMin ≤ prefMin then some (prefMin - nowMin)
    else some ((1440 - nowMin) + prefMin)
  | _, _ => none

/-- isAtLeastMinutesAhead from page.tsx. -/
def isAtLeastMinutesAhead (nowStr preferredHHMM : String) (minAhead : Nat) : Bool :=
  match minutesUntilSend nowStr preferredHHMM with
  | some d => minAhead ≤ d
  | none => false

theorem pad2_digits : ∀ n < 100,
    (pad2s (toString n)).data = [Char.ofNat (48 + n / 10), Char.ofNat (48 + n % 10)] := by
  decide

theorem digit_char_facts : ∀ d < 10,
    wsChar (Char.ofNat (48 + d)) = false ∧ (Char.ofNat (48 + d)).isDigit = true ∧
    digitVal (Char.ofNat (48 + d)) = d := by
  decide

theorem trimChars_no_ws (a b c d e : Char)
    (ha : wsChar a = false) (he : wsChar e = false) :
    trimChars [a, b, c, d, e] = [a, b, c, d, e] := by
  unfold trimChars
  rw [List.dropWhile_cons_of_neg (by simp [ha])]
  simp only [List.reverse_cons, List.reverse_nil, List.nil_append, List.cons_append]
  rw [List.dropWhile_cons_of_neg (by simp [he])]
  simp

theorem parseHHMM_format (h m : Nat) (hh : h ≤ 23) (hm : m ≤ 59) :
    parseHHMM (pad2s (toString h) ++ ":" ++ pad2s (toString m)) = some (h, m) := by
  have h10 : h / 10 < 10 := by omega
  have h1 : h % 10 < 10 := by omega
  have m10 : m / 10 < 10 := by omega
  have m1 : m % 10 < 10 := by omega
  have dh := pad2_digits h (by omega)
  have dm := pad2_digits m (by omega)
  have hdata : (pad2s (toString h) ++ ":" ++ pad2s (toString m)).data =
      [Char.ofNat (48 + h / 10), Char.ofNat (48 + h % 10), ':',
       Char.ofNat (48 + m / 10), Char.ofNat (48 + m % 10)] := by
    rw [String.data_append, String.data_append, dh, dm]
    rfl
  unfold parseHHMM jsTrim
  rw [hdata]
  rw [trimChars_no_ws _ _ _ _ _ ((digit_char_facts _ h10).1) ((digit_char_facts _ m1).1)]
  have f1 := digit_char_facts _ h10
  have f2 := digit_char_facts _ h1
  have f3 := digit_char_facts _ m10
  have f4 := digit_char_facts _ m1
  simp only [f1.2.1, f2.2.1, f3.2.1, f4.2.1, f1.2.2, f2.2.2, f3.2.2, f4.2.2]
  have hcolon : ((':' : Char) == ':') = true := by decide
  simp only [hcolon, Bool.and_true, Bool.true_and, if_true]
  have hhv : h / 10 * 10 + h % 10 = h := by omega
  have hmv : m / 10 * 10 + m % 10 = m := by omega
  rw [hhv, hmv]
  have : (23 < h || 59 < m) = false := by
    simp [Nat.not_lt.mpr hh, Nat.not_lt.mpr hm]
  simp [this]

theorem parseHHMM_bounds {s : String} {h m : Nat} (hp : parseHHMM s = some (h, m)) :
    h ≤ 23 ∧ m ≤ 59 := by
  unfold parseHHMM at hp
  split at hp
  · split at hp
    · simp only [Bool.or_eq_true, decide_eq_true_eq] at hp
      split at hp
      · exact absurd hp (by simp)
      · rename_i hcond
        simp only [Option.some.injEq, Prod.mk.injEq] at hp
        push_neg at hcond
        omega
    · exact absurd hp (by simp)
  · exact absurd hp (by simp)

/-- C1: whenever both the current wall-clock string and the target parse as
valid HH:MM, minutesUntilSend returns an integer between 0 and 1439 (the
result is a Nat, so the lower bound is inherent); whenever either fails to
parse it returns null. -/
theorem C1_minutesUntilSend_range : ∀ nowStr target : String,
    (∀ pn pt, parseHHMM nowStr = some pn → parseHHMM target = some pt →
      ∃ d, minutesUntilSend nowStr target = some d ∧ d ≤ 1439) ∧
    ((parseHHMM nowStr = none ∨ parseHHMM target = none) →
      minutesUntilSend nowStr target = none) := by
  intro nowStr target
  constructor
  · rintro ⟨h1, m1⟩ ⟨h2, m2⟩ hp1 hp2
    obtain ⟨b1h, b1m⟩ := parseHHMM_bounds hp1
    obtain ⟨b2h, b2m⟩ := parseHHMM_bounds hp2
    by_cases hle : h1 * 60 + m1 ≤ h2 * 60 + m2
    · exact ⟨h2 * 60 + m2 - (h1 * 60 + m1),
        by simp [minutesUntilSend, hp1, hp2, minutesOfDay, hle], by omega⟩
    · exact ⟨1440 - (h1 * 60 + m1) + (h2 * 60 + m2),
        by simp [minutesUntilSend, hp1, hp2, minutesOfDay, hle], by omega⟩
  · rintro (hn | hn)
    · simp [minutesUntilSend, hn]
    · cases hq : parseHHMM nowStr <;> simp [minutesUntilSend, hq, hn]

/-- Witness for C1 at now 23:59 and target 00:01 (the wraparound case). -/
theorem C1_minutesUntilSend_range_witness :
    ∃ d, minutesUntilSend "23:59" "00:01" = some d ∧ d ≤ 1439 :=
  (C1_minutesUntilSend_range "23:59" "00:01").1 (23, 59) (0, 1) (by decide) (by decide)

/-- C2: with the current instant held fixed, whenever the current time in
the zone parses as valid HH:MM, scheduling addMinutesHHMMInTimeZone two
minutes ahead always satisfies the two-minute lookahead rule; adding two
minutes at 23:59 wraps past midnight to 00:01. -/
theorem C2_testmode_passes_lookahead :
    (∀ nowStr p, parseHHMM nowStr = some p →
      isAtLeastMinutesAhead nowStr (addMinutesHHMMInTimeZone nowStr 2) 2 = true) ∧
    addMinutesHHMMInTimeZone "23:59" 2 = "00:01" := by
  constructor
  · rintro nowStr ⟨h, m⟩ hp
    obtain ⟨bh, bm⟩ := parseHHMM_bounds hp
    have htotal :
        (((minutesOfDay h m + 2) % 1440) + 1440) % 1440 = (h * 60 + m + 2) % 1440 := by
      unfold minutesOfDay; omega
    set total := (h * 60 + m + 2) % 1440 with htdef
    have hlt : total < 1440 := by omega
    have hpf := parseHHMM_format (total / 60) (total % 60) (by omega) (by omega)
    have hval : total / 60 * 60 + total % 60 = total := by omega
    have hadd : addMinutesHHMMInTimeZone nowStr 2 =
        pad2s (toString (total / 60)) ++ ":" ++ pad2s (toString (total % 60)) := by
      simp only [addMinutesHHMMInTimeZone, hp]
      rw [htotal]
    by_cases hle : h * 60 + m ≤ total
    · have hmu : minutesUntilSend nowStr (addMinutesHHMMInTimeZone nowStr 2) =
          some (total - (h * 60 + m)) := by
        rw [hadd]
        simp [minutesUntilSend, hp, hpf, minutesOfDay, hval, hle]
      simp only [isAtLeastMinutesAhead, hmu]
      simp only [decide_eq_true_eq]
      omega
    · have hmu : minutesUntilSend nowStr (addMinutesHHMMInTimeZone nowStr 2) =
          some (1440 - (h * 60 + m) + total) := by
        rw [hadd]
        simp [minutesUntilSend, hp, hpf, minutesOfDay, hval, hle]
      simp only [isAtLeastMinutesAhead, hmu]
      simp only [decide_eq_true_eq]
      omega
  · decide

/-- Witness for C2 at now 23:59, exercising the midnight wrap. -/
theorem C2_testmode_passes_lookahead_witness :
    isAtLeastMinutesAhead "23:59" (addMinutesHHMMInTimeZone "23:59" 2) 2 = true :=
  C2_testmode_passes_lookahead.1 "23:59" (23, 59) (by decide)

/-! Section: Draft form state (page.tsx lines 126-262) -/

/-- Units enum from page.tsx (named Units there; renamed here because Lean
already has a Units). -/
inductive UnitsChoice where
  | metric
  | imperial
deriving DecidableEq, Repr

/-- Draft record from page.tsx. -/
structure Draft where
  email : String
  timezone : String
  preferred_time : String
  units : UnitsChoice
  cities : List String
  is_active : Bool

/-- Initial draft created on first load; the detected timezone and the
current local time string (nowHHMMInTimeZone of that zone) are environment
reads, abstracted as parameters. -/
def initialDraft (detectedTz nowStr : String) : Draft :=
  { email := "", timezone := detectedTz, preferred_time := nowStr,
    units := UnitsChoice.metric, cities := ["London"], is_active := true }

/-- addCity from page.tsx acting on the draft city list: trim the input,
no-op when blank, otherwise append and re-sanitize. -/
def addCity (cities : List String) (cityInput : String) : List String :=
  let v := jsTrim cityInput
  if v = "" then cities else clampCities (cities ++ [v])

/-- removeCity from page.tsx: cities.filter((_, i) => i !== idx). -/
def removeCity (cities : List String) (idx : Nat) : List String :=
  (cities.enum.filter (fun p => p.1 != idx)).map Prod.snd

/-- commitEditCity from page.tsx acting on the draft city list: trim the
edited value, no-op when blank, otherwise overwrite the slot and
re-sanitize. The UI only ever edits an index of an existing chip. -/
def commitEditCity (cities : List String) (idx : Nat) (editingValue : String) : List String :=
  let v := jsTrim editingValue
  if v = "" then cities else clampCities (cities.set idx v)

/-- Invariant claimed for every produced city list: at most 10 entries, no
entry blank after trimming, and no two entries equal case-insensitively. -/
def citiesInvariant (cs : List String) : Prop :=
  cs.length ≤ 10 ∧ (∀ c ∈ cs, jsTrim c ≠ "") ∧
  cs.Pairwise (fun a b => jsLower a ≠ jsLower b)

theorem trimChars_eq_nil_iff {l : List Char} :
    trimChars l = [] ↔ ∀ c ∈ l, wsChar c := by
  unfold trimChars
  rw [List.reverse_eq_nil_iff, List.dropWhile_eq_nil_iff]
  constructor
  · intro h c hc
    rcases List.mem_append.1 (by rw [List.takeWhile_append_dropWhile (p := wsChar)]; exact hc) with h1 | h2
    · exact List.mem_takeWhile_imp h1
    · exact h c (List.mem_reverse.2 h2)
  · intro h c hc
    exact h c ((List.dropWhile_sublist wsChar).subset (List.mem_reverse.1 hc))

theorem trimChars_has_non_ws {l : List Char} (h : trimChars l ≠ []) :
    ∃ c ∈ trimChars l, wsChar c = false := by
  unfold trimChars at h ⊢
  have hrne : (l.dropWhile wsChar).reverse.dropWhile wsChar ≠ [] := by
    intro habs
    rw [habs] at h
    exact h rfl
  exact ⟨_, List.mem_reverse.2 (List.head_mem hrne),
    List.head_dropWhile_not wsChar _ hrne⟩

theorem jsTrim_ne_empty_iff {s : String} :
    jsTrim s ≠ "" ↔ trimChars s.data ≠ [] := by
  unfold jsTrim
  constructor
  · intro h habs
    exact h (by rw [habs])
  · intro h habs
    apply h
    exact congrArg String.data habs

theorem jsTrim_idem_ne {s : String} (h : jsTrim s ≠ "") : jsTrim (jsTrim s) ≠ "" := by
  rw [jsTrim_ne_empty_iff] at h ⊢
  obtain ⟨c, hc, hcw⟩ := trimChars_has_non_ws h
  intro habs
  have hall := trimChars_eq_nil_iff.1 (show trimChars (trimChars s.data) = [] from habs)
  have := hall c (show c ∈ trimChars s.data from hc)
  rw [hcw] at this
  exact Bool.false_ne_true this

theorem clampLoop_trimmed : ∀ (arr : List String) (seen : List String) (c : String),
    c ∈ clampLoop seen arr → jsTrim c ≠ "" := by
  intro arr
  induction arr with
  | nil => intro seen c hc; simp [clampLoop] at hc
  | cons raw rest ih =>
    intro seen c hc
    unfold clampLoop at hc
    by_cases h1 : jsTrim raw = ""
    · rw [if_pos h1] at hc; exact ih seen c hc
    · rw [if_neg h1] at hc
      by_cases h2 : jsLower (jsTrim raw) ∈ seen
      · rw [if_pos h2] at hc; exact ih seen c hc
      · rw [if_neg h2] at hc
        rcases List.mem_cons.1 hc with rfl | hmem
        · exact jsTrim_idem_ne h1
        · exact ih _ c hmem

theorem clampLoop_not_seen : ∀ (arr : List String) (seen : List String) (c : String),
    c ∈ clampLoop seen arr → jsLower c ∉ seen := by
  intro arr
  induction arr with
  | nil => intro seen c hc; simp [clampLoop] at hc
  | cons raw rest ih =>
    intro seen c hc
    unfold clampLoop at hc
    by_cases h1 : jsTrim raw = ""
    · rw [if_pos h1] at hc; exact ih seen c hc
    · rw [if_neg h1] at hc
      by_cases h2 : jsLower (jsTrim raw) ∈ seen
      · rw [if_pos h2] at hc; exact ih seen c hc
      · rw [if_neg h2] at hc
        rcases List.mem_cons.1 hc with rfl | hmem
        · exact h2
        · intro habs
          exact (ih _ c hmem) (List.mem_cons_of_mem _ habs)

theorem clampLoop_pairwise : ∀ (arr : List String) (seen : List String),
    (clampLoop seen arr).Pairwise (fun a b => jsLower a ≠ jsLower b) := by
  intro arr
  induction arr with
  | nil => intro seen; simp [clampLoop]
  | cons raw rest ih =>
    intro seen
    unfold clampLoop
    by_cases h1 : jsTrim raw = ""
    · rw [if_pos h1]; exact ih seen
    · rw [if_neg h1]
      by_cases h2 : jsLower (jsTrim raw) ∈ seen
      · rw [if_pos h2]; exact ih seen
      · rw [if_neg h2]
        refine List.Pairwise.cons ?_ (ih _)
        intro b hb habs
        have := clampLoop_not_seen rest (jsLower (jsTrim raw) :: seen) b hb
        exact this (by rw [← habs]; exact List.mem_cons_self _ _)

theorem citiesInvariant_sublist {cs cs2 : List String} (h : List.Sublist cs2 cs) :
    citiesInvariant cs → citiesInvariant cs2 := by
  rintro ⟨hlen, hblank, hpw⟩
  exact ⟨le_trans h.length_le hlen, fun c hc => hblank c (h.subset hc), hpw.sublist h⟩

theorem citiesInvariant_clampCities (arr : List String) :
    citiesInvariant (clampCities arr) := by
  unfold clampCities
  refine ⟨List.length_take_le 10 _, ?_, ?_⟩
  · intro c hc
    exact clampLoop_trimmed arr [] c ((List.take_sublist 10 _).subset hc)
  · exact (clampLoop_pairwise arr []).sublist (List.take_sublist 10 _)

theorem removeCity_sublist (cities : List String) (idx : Nat) :
    List.Sublist (removeCity cities idx) cities := by
  unfold removeCity
  have h1 : List.Sublist (cities.enum.filter (fun p => p.1 != idx)) cities.enum :=
    List.filter_sublist _
  have h2 := h1.map Prod.snd
  rwa [List.enum_map_snd] at h2

/-! Section: Restore from localStorage (page.tsx lines 158-179) -/

/-- Shape of the JSON draft read back from localStorage (Partial of Draft in
the source): every field may be absent. A units value of any string is
accepted (the code compares it with "imperial"), and is_active is kept only
when it is an actual boolean, so a present non-boolean is modelled as
none, exactly as typeof rejects it. -/
structure StoredDraft where
  email : Option String := none
  timezone : Option String := none
  preferred_time : Option String := none
  units : Option String := none
  cities : Option (List String) := none
  is_active : Option Bool := none

/-- Model of the JS expression (s or d): a string is falsy exactly when
empty. -/
def jsOrS (s d : String) : String :=
  if s = "" then d else s

/-- Model of (o or d) where o is a possibly-absent string. -/
def jsOrD (o : Option String) (d : String) : String :=
  match o with
  | some s => jsOrS s d
  | none => d

/-- Restore effect from page.tsx: merge the stored draft onto the previous
draft. The object spread makes email the stored value whenever the key is
present; timezone and preferred_time fall back through JS truthiness and
the literals "UTC" / "09:00"; preferred_time is truncated to 5 characters;
units collapses to metric unless exactly "imperial"; cities go through
clampCities; is_active survives only as a boolean. -/
def restoreDraft (parsed : StoredDraft) (prev : Draft) : Draft :=
  { email := parsed.email.getD prev.email,
    timezone := jsTrim (jsOrD parsed.timezone (jsOrS prev.timezone "UTC")),
    preferred_time := jsSlice5 (jsOrD parsed.preferred_time (jsOrS prev.preferred_time "09:00")),
    units := if parsed.units = some "imperial" then UnitsChoice.imperial else UnitsChoice.metric,
    cities := clampCities (parsed.cities.getD prev.cities),
    is_active := parsed.is_active.getD prev.is_active }

/-! Section: saveSubscription (page.tsx lines 264-314) -/

/-- timeValid from page.tsx: the untrimmed regex test dd:dd on
preferred_time (no range check at this point). -/
def timeValid (s : String) : Bool :=
  match s.data with
  | [a, b, c, d, e] => a.isDigit && b.isDigit && c == ':' && d.isDigit && e.isDigit
  | _ => false

/-- scheduledAheadOk from page.tsx, with the zone clock abstracted as
nowStr. -/
def scheduledAheadOk (nowStr : String) (draft : Draft) : Bool :=
  if !timeValid draft.preferred_time then false
  else isAtLeastMinutesAhead nowStr draft.preferred_time 2

/-- Payload the page posts to the proxy. -/
structure PagePayload where
  email : String
  timezone : String
  preferred_time : String
  units : UnitsChoice
  cities : List String
  is_active : Bool
deriving DecidableEq

/-- Outcome of saveSubscription up to the network boundary: blocked means
the early return that shows the guidance toast, performs no fetch and
leaves the draft untouched; send carries the JSON payload handed to fetch. -/
inductive SaveStep where
  | blocked (msg : String)
  | send (payload : PagePayload)
deriving DecidableEq

/-- saveSubscription from page.tsx up to the fetch call, with the zone
clock abstracted as nowStr and opts?.testNow as testNow. -/
def saveSubscription (nowStr : String) (draft : Draft) (testNow : Bool) : SaveStep :=
  let scheduled := if testNow then addMinutesHHMMInTimeZone nowStr 2
                   else draft.preferred_time
  if !testNow && !scheduledAheadOk nowStr draft then
    SaveStep.blocked ("Pick a time at least 2 minutes from now (in " ++
      draft.timezone ++ "). (Tomorrow is allowed.)")
  else
    SaveStep.send { email := jsTrim draft.email, timezone := jsTrim draft.timezone,
                    preferred_time := jsTrim scheduled, units := draft.units,
                    cities := draft.cities, is_active := draft.is_active }

/-! Section: Claims C4, C5, C6 -/

/-- C4: every operation producing the draft's city list (the initial
default, addCity, removeCity, commitEditCity, and restore from persisted
storage) yields at most 10 entries, none blank after trimming, and no two
equal case-insensitively. -/
theorem C4_city_operations_preserve_invariant :
    (∀ arr, citiesInvariant (clampCities arr)) ∧
    (∀ detectedTz nowStr, citiesInvariant (initialDraft detectedTz nowStr).cities) ∧
    (∀ cs inp, citiesInvariant cs → citiesInvariant (addCity cs inp)) ∧
    (∀ cs idx, citiesInvariant cs → citiesInvariant (removeCity cs idx)) ∧
    (∀ cs idx v, citiesInvariant cs → citiesInvariant (commitEditCity cs idx v)) ∧
    (∀ parsed prev, citiesInvariant (restoreDraft parsed prev).cities) := by
  refine ⟨citiesInvariant_clampCities, ?_, ?_, ?_, ?_, ?_⟩
  · intro detectedTz nowStr
    show citiesInvariant ["London"]
    exact ⟨by decide, by decide, by simp⟩
  · intro cs inp hinv
    unfold addCity
    by_cases h : jsTrim inp = ""
    · simpa [h] using hinv
    · simpa [h] using citiesInvariant_clampCities (cs ++ [jsTrim inp])
  · intro cs idx hinv
    exact citiesInvariant_sublist (removeCity_sublist cs idx) hinv
  · intro cs idx v hinv
    unfold commitEditCity
    by_cases h : jsTrim v = ""
    · simpa [h] using hinv
    · simpa [h] using citiesInvariant_clampCities (cs.set idx (jsTrim v))
  · intro parsed prev
    exact citiesInvariant_clampCities _

/-- Witness for C4: removing the first of two sanitized cities keeps the
invariant. -/
theorem C4_city_operations_preserve_invariant_witness :
    citiesInvariant (removeCity ["London", "Paris"] 0) :=
  C4_city_operations_preserve_invariant.2.2.2.1 ["London", "Paris"] 0
    ⟨by decide, by decide, by decide⟩

/-- C5: saving in non-test mode while preferred_time equals the current
time in the zone is blocked immediately with the guidance toast; the early
return happens before the fetch, so no network request is made and the
draft is left unchanged. -/
theorem C5_save_blocked_when_time_is_now :
    ∀ nowStr (draft : Draft) p, draft.preferred_time = nowStr →
      parseHHMM nowStr = some p →
      saveSubscription nowStr draft false =
        SaveStep.blocked ("Pick a time at least 2 minutes from now (in " ++
          draft.timezone ++ "). (Tomorrow is allowed.)") := by
  rintro nowStr draft ⟨h, m⟩ heq hp
  have hmu : minutesUntilSend nowStr draft.preferred_time = some 0 := by
    rw [heq]
    simp [minutesUntilSend, hp, minutesOfDay]
  have hahead : isAtLeastMinutesAhead nowStr draft.preferred_time 2 = false := by
    simp [isAtLeastMinutesAhead, hmu]
  have hok : scheduledAheadOk nowStr draft = false := by
    unfold scheduledAheadOk
    by_cases ht : timeValid draft.preferred_time
    · simp [ht, hahead]
    · simp [ht]
  simp [saveSubscription, hok]

/-- Witness for C5: a concrete draft whose preferred time is the current
time 09:00 is blocked. -/
theorem C5_save_blocked_when_time_is_now_witness :
    saveSubscription "09:00"
      { email := "a@b.com", timezone := "UTC", preferred_time := "09:00",
        units := UnitsChoice.metric, cities := ["London"], is_active := true } false =
      SaveStep.blocked ("Pick a time at least 2 minutes from now (in " ++
        "UTC" ++ "). (Tomorrow is allowed.)") :=
  C5_save_blocked_when_time_is_now "09:00" _ (9, 0) rfl (by decide)

/-- Example previous draft used for the C6 counterexample. -/
def prevDraftEx : Draft :=
  { email := "", timezone := "UTC", preferred_time := "09:00",
    units := UnitsChoice.metric, cities := ["London"], is_active := true }

/-- C6 counterexample: a persisted preferred_time that is not well-formed
HH:MM is not replaced by a default; restore keeps its first five
characters ("garbage!!" becomes "garba", which is neither valid HH:MM nor
any default). -/
theorem C6_restore_counterexample :
    (restoreDraft { preferred_time := some "garbage!!" } prevDraftEx).preferred_time
        = "garba" ∧
    parseHHMM "garba" = none ∧ "garba" ≠ prevDraftEx.preferred_time := by
  refine ⟨by decide, by decide, by decide⟩

/-- C6 amended: restore merges the persisted draft onto the previous draft
field by field, but preferred_time only falls back (to the previous value,
then "09:00") when the stored value is missing or empty; a present
non-empty stored value is kept truncated to its first five characters
without HH:MM validation. Units always collapse to the enum, cities are
sanitized through clampCities, and email and is_active fall back to the
previous draft exactly when absent (or, for is_active, non-boolean). -/
theorem C6_restore_merges_field_by_field :
    ∀ (parsed : StoredDraft) (prev : Draft),
      ((parsed.preferred_time = none ∨ parsed.preferred_time = some "") →
        (restoreDraft parsed prev).preferred_time =
          jsSlice5 (jsOrS prev.preferred_time "09:00")) ∧
      (∀ s, parsed.preferred_time = some s → s ≠ "" →
        (restoreDraft parsed prev).preferred_time = jsSlice5 s) ∧
      ((restoreDraft parsed prev).units = UnitsChoice.metric ∨
        (restoreDraft parsed prev).units = UnitsChoice.imperial) ∧
      (parsed.email = none → (restoreDraft parsed prev).email = prev.email) ∧
      (parsed.cities = none →
        (restoreDraft parsed prev).cities = clampCities prev.cities) ∧
      (parsed.is_active = none →
        (restoreDraft parsed prev).is_active = prev.is_active) := by
  intro parsed prev
  refine ⟨?_, ?_, ?_, ?_, ?_, ?_⟩
  · rintro (h | h) <;> simp [restoreDraft, h, jsOrD, jsOrS]
  · intro s hs hne
    simp [restoreDraft, hs, jsOrD, jsOrS, hne]
  · by_cases h : parsed.units = some "imperial" <;> simp [restoreDraft, h]
  · intro h; simp [restoreDraft, h]
  · intro h; simp [restoreDraft, h]
  · intro h; simp [restoreDraft, h]

/-- Witness for C6 amended: the non-empty stored value "garbage!!" is kept
truncated, not validated. -/
theorem C6_restore_merges_field_by_field_witness :
    (restoreDraft { preferred_time := some "garbage!!" } prevDraftEx).preferred_time =
      jsSlice5 "garbage!!" :=
  (C6_restore_merges_field_by_field { preferred_time := some "garbage!!" } prevDraftEx).2.1
    "garbage!!" rfl (by decide)

/-- JSON value model for the proxy route; numbers are restricted to
integers, which covers every payload this application produces. -/
inductive Json where
  | null
  | bool (b : Bool)
  | num (n : Int)
  | str (s : String)
  | arr (elems : List Json)
  | obj (fields : List (String × Json))

/-- String escaping for the JSON.stringify model (the common escapes;
other control characters pass through unchanged in this model). -/
def escapeChar (c : Char) : List Char :=
  if c = '"' then ['\\', '"']
  else if c = '\\' then ['\\', '\\']
  else if c = '\n' then ['\\', 'n']
  else if c = '\t' then ['\\', 't']
  else if c = '\r' then ['\\', 'r']
  else [c]

/-- Serialized JSON string literal, quotes included. -/
def strLitChars (s : String) : List Char :=
  '"' :: s.data.foldr (fun c acc => escapeChar c ++ acc) ['"']

mutual
/-- Model of JSON.stringify (compact output, as in JS with no spacing
argument). -/
def stringifyChars : Json → List Char
  | Json.null => "null".data
  | Json.bool true => "true".data
  | Json.bool false => "false".data
  | Json.num n => (toString n).data
  | Json.str s => strLitChars s
  | Json.arr xs => '[' :: stringifyArr xs ++ [']']
  | Json.obj fs => '\x7b' :: stringifyObj fs ++ ['\x7d']

def stringifyArr : List Json → List Char
  | [] => []
  | [x] => stringifyChars x
  | x :: y :: xs => stringifyChars x ++ ',' :: stringifyArr (y :: xs)

def stringifyObj : List (String × Json) → List Char
  | [] => []
  | [(k, v)] => strLitChars k ++ ':' :: stringifyChars v
  | (k, v) :: m :: xs =>
    strLitChars k ++ ':' :: stringifyChars v ++ ',' :: stringifyObj (m :: xs)
end

def stringifyJson (j : Json) : String := ⟨stringifyChars j⟩

/-- JSON insignificant whitespace. -/
def jsonWs (c : Char) : Bool :=
  c == ' ' || c == '\t' || c == '\n' || c == '\r'

def skipWs (l : List Char) : List Char := l.dropWhile jsonWs

/-- Body of a JSON string literal after the opening quote, with the common
escapes unescaped. -/
def parseStringBody : List Char → Option (String × List Char)
  | [] => none
  | '"' :: rest => some ("", rest)
  | '\\' :: c :: rest =>
    let e := if c = 'n' then '\n' else if c = 't' then '\t'
             else if c = 'r' then '\r' else c
    (parseStringBody rest).map (fun p => (⟨e :: p.1.data⟩, p.2))
  | c :: rest => (parseStringBody rest).map (fun p => (⟨c :: p.1.data⟩, p.2))

def parseNatNum (l : List Char) : Option (Nat × List Char) :=
  let ds := l.takeWhile Char.isDigit
  if ds.isEmpty then none
  else some (ds.foldl (fun a c => a * 10 + digitVal c) 0, l.dropWhile Char.isDigit)

def parseIntNum (l : List Char) : Option (Int × List Char) :=
  match l with
  | '-' :: rest => (parseNatNum rest).map (fun p => (-(p.1 : Int), p.2))
  | _ => (parseNatNum l).map (fun p => ((p.1 : Int), p.2))

mutual
/-- Model of JSON.parse: recursive descent, fuel bounds the nesting. -/
def parseVal : Nat → List Char → Option (Json × List Char)
  | 0, _ => none
  | fuel + 1, l =>
    match skipWs l with
    | 'n' :: 'u' :: 'l' :: 'l' :: rest => some (Json.null, rest)
    | 't' :: 'r' :: 'u' :: 'e' :: rest => some (Json.bool true, rest)
    | 'f' :: 'a' :: 'l' :: 's' :: 'e' :: rest => some (Json.bool false, rest)
    | '"' :: rest => (parseStringBody rest).map (fun p => (Json.str p.1, p.2))
    | '[' :: rest =>
      (match skipWs rest with
       | ']' :: r2 => some (Json.arr [], r2)
       | r2 => (parseElems fuel r2).map (fun p => (Json.arr p.1, p.2)))
    | '\x7b' :: rest =>
      (match skipWs rest with
       | '\x7d' :: r2 => some (Json.obj [], r2)
       | r2 => (parseMembers fuel r2).map (fun p => (Json.obj p.1, p.2)))
    | l2 => (parseIntNum l2).map (fun p => (Json.num p.1, p.2))

def parseElems : Nat → List Char → Option (List Json × List Char)
  | 0, _ => none
  | fuel + 1, l =>
    match parseVal fuel l with
    | none => none
    | some (j, r) =>
      match skipWs r with
      | ',' :: r2 => (parseElems fuel r2).map (fun p => (j :: p.1, p.2))
      | ']' :: r2 => some ([j], r2)
      | _ => none

def parseMembers : Nat → List Char → Option (List (String × Json) × List Char)
  | 0, _ => none
  | fuel + 1, l =>
    match skipWs l with
    | '"' :: rest =>
      match parseStringBody rest with
      | none => none
      | some (k, r) =>
        match skipWs r with
        | ':' :: r2 =>
          match parseVal fuel r2 with
          | none => none
          | some (v, r3) =>
            match skipWs r3 with
            | ',' :: r4 => (parseMembers fuel r4).map (fun p => ((k, v) :: p.1, p.2))
            | '\x7d' :: r4 => some ([(k, v)], r4)
            | _ => none
        | _ => none
    | _ => none
end

/-- Model of JSON.parse on a whole string: the value must consume the
input up to trailing whitespace, else the parse throws (none). -/
def parseJsonStr (s : String) : Option Json :=
  match parseVal (s.data.length + 2) s.data with
  | some (j, rest) => if skipWs rest = [] then some j else none
  | none => none

/-! Section: Submission proxy route (page.tsx lines 605-697, the POST handler) -/

/-- Server environment for the proxy route; none models an unset variable.
The JS falsiness check also rejects a set-but-empty string. -/
structure Env where
  supabaseUrl : Option String
  adminSecret : Option String
  serviceRole : Option String

/-- Truthiness test the handler applies to each env var (if (!VAR)). -/
def falsyEnv : Option String → Bool
  | none => true
  | some s => s == ""

def envOK (env : Env) : Bool :=
  !falsyEnv env.supabaseUrl && !falsyEnv env.adminSecret && !falsyEnv env.serviceRole

/-- JS property read body[k] on a parsed JSON value: objects give the last
binding of the key (JSON.parse keeps the last duplicate); every other
value has no such property. none models undefined. -/
def jsGet (j : Json) (k : String) : Option Json :=
  match j with
  | Json.obj fields => (fields.reverse.find? (fun p => p.1 == k)).map Prod.snd
  | _ => none

/-- JS truthiness of a possibly-absent JSON value. -/
def jsTruthy : Option Json → Bool
  | none => false
  | some Json.null => false
  | some (Json.bool b) => b
  | some (Json.num n) => !(n == 0)
  | some (Json.str s) => !(s == "")
  | some (Json.arr _) => true
  | some (Json.obj _) => true

/-- Array.isArray on a possibly-absent JSON value. -/
def jsIsArray : Option Json → Bool
  | some (Json.arr _) => true
  | _ => false

/-- Model of (body ?? \x7b\x7d): a null body destructures like an empty
object. -/
def jsBodyObj : Json → Json
  | Json.null => Json.obj []
  | other => other

/-- Body NextResponse.json({ error: msg }) serializes. -/
def errJson (msg : String) : Json := Json.obj [("error", Json.str msg)]

/-- Outbound request the proxy builds for the upstream upsert endpoint;
the body is kept as the JSON object handed to JSON.stringify. -/
structure ForwardRequest where
  url : String
  authorization : String
  apikey : String
  adminSecretHeader : String
  bodyJson : Json

/-- Result of the proxy route up to the upstream call: reply is a direct
response with no upstream contact; forward carries the upstream request. -/
inductive ProxyStep where
  | reply (status : Nat) (body : Json)
  | forward (req : ForwardRequest)

/-- Keys of the object literal the handler re-builds from the payload, in
source order. -/
def knownKeys : List String :=
  ["email", "timezone", "preferred_time", "units", "cities", "is_active"]

/-- JSON.stringify drops object entries whose value is undefined, so the
re-built payload holds exactly the known fields present on the input. -/
def forwardFields (body : Json) : List (String × Json) :=
  knownKeys.filterMap (fun k => (jsGet body k).map (fun v => (k, v)))

/-- POST handler of the proxy route before the upstream fetch, acting on
the already-parsed request body (await req.json()); the env checks come
first, then the field validation, then the forward. -/
def proxyRoute (env : Env) (body : Json) : ProxyStep :=
  if falsyEnv env.supabaseUrl then
    ProxyStep.reply 500 (errJson "Missing SUPABASE_URL env var")
  else if falsyEnv env.adminSecret then
    ProxyStep.reply 500 (errJson "Missing ADMIN_SECRET env var")
  else if falsyEnv env.serviceRole then
    ProxyStep.reply 500 (errJson "Missing SUPABASE_SERVICE_ROLE_KEY env var")
  else
    let b := jsBodyObj body
    if !jsTruthy (jsGet b "email") || !jsTruthy (jsGet b "timezone") ||
       !jsTruthy (jsGet b "preferred_time") || !jsTruthy (jsGet b "units") ||
       !jsIsArray (jsGet b "cities") then
      ProxyStep.reply 400 (errJson "Missing required fields")
    else
      ProxyStep.forward
        { url := (env.supabaseUrl.getD "") ++ "/functions/v1/upsert-subscriber",
          authorization := "Bearer " ++ (env.serviceRole.getD ""),
          apikey := env.serviceRole.getD "",
          adminSecretHeader := jsTrim (env.adminSecret.getD ""),
          bodyJson := Json.obj (forwardFields b) }

/-- Upstream HTTP response as the proxy sees it. -/
structure UpstreamResponse where
  status : Nat
  body : String

/-- fetch Response.ok: status in the 2xx range. -/
def httpOk (status : Nat) : Bool :=
  200 ≤ status && status < 300

/-- Tail of the proxy route after the upstream call: non-ok responses are
relayed verbatim with the upstream status; ok responses are re-parsed and
re-serialized as JSON with status 200 when they parse, otherwise returned
as raw text with status 200. -/
def relayUpstream (up : UpstreamResponse) : Nat × String :=
  if !httpOk up.status then (up.status, up.body)
  else
    match parseJsonStr up.body with
    | some j => (200, stringifyJson j)
    | none => (200, up.body)

/-! Section: Claims C7-C10 -/

theorem filterMap_keys (b : Json) : ∀ ks : List String,
    (ks.filterMap (fun k => (jsGet b k).map (fun v => (k, v)))).map Prod.fst =
    ks.filter (fun k => (jsGet b k).isSome) := by
  intro ks
  induction ks with
  | nil => rfl
  | cons a ks ih =>
    cases h : jsGet b a with
    | none => simp [List.filterMap_cons, List.filter_cons, h, ih]
    | some v => simp [List.filterMap_cons, List.filter_cons, h, ih]

theorem filterMap_mem (b : Json) (ks : List String) (k : String) (v : Json) :
    (k, v) ∈ ks.filterMap (fun k2 => (jsGet b k2).map (fun v2 => (k2, v2))) ↔
    (k ∈ ks ∧ jsGet b k = some v) := by
  rw [List.mem_filterMap]
  constructor
  · rintro ⟨a, ha, hfa⟩
    cases h : jsGet b a with
    | none => simp [h] at hfa
    | some w =>
      rw [h] at hfa
      simp only [Option.map_some', Option.some.injEq, Prod.mk.injEq] at hfa
      obtain ⟨rfl, rfl⟩ := hfa
      exact ⟨ha, h⟩
  · rintro ⟨hk, hv⟩
    exact ⟨k, hk, by rw [hv]; rfl⟩

theorem proxyRoute_forward_inv {env : Env} {body : Json} {fr : ForwardRequest}
    (h : proxyRoute env body = ProxyStep.forward fr) :
    fr.bodyJson = Json.obj (forwardFields (jsBodyObj body)) := by
  unfold proxyRoute at h
  split at h
  · simp at h
  · split at h
    · simp at h
    · split at h
      · simp at h
      · dsimp only at h
        split at h
        · simp at h
        · injection h with h2
          rw [← h2]

/-- C7 counterexample: a 201 upstream response with a JSON body is relayed
as status 200 with the body re-serialized compactly, so neither the status
code nor the body bytes survive on the happy path. -/
theorem C7_relay_counterexample :
    relayUpstream ⟨201, "\x7b \"a\" : 1 \x7d"⟩ = (200, "\x7b\"a\":1\x7d") ∧
    relayUpstream ⟨201, "\x7b \"a\" : 1 \x7d"⟩ ≠ (201, "\x7b \"a\" : 1 \x7d") :=
  ⟨rfl, fun h => absurd (congrArg Prod.fst h) (by decide)⟩

/-- C7 amended: on upstream failure (non-2xx) the proxy relays the status
and body byte-for-byte; on the happy path the status is always 200 and the
body is the upstream body re-serialized through a JSON parse when it
parses, otherwise the raw text unchanged. -/
theorem C7_relay_amended : ∀ up : UpstreamResponse,
    (httpOk up.status = false → relayUpstream up = (up.status, up.body)) ∧
    (httpOk up.status = true →
      (relayUpstream up).1 = 200 ∧
      ((parseJsonStr up.body = none ∧ (relayUpstream up).2 = up.body) ∨
       (∃ j, parseJsonStr up.body = some j ∧
         (relayUpstream up).2 = stringifyJson j))) := by
  intro up
  constructor
  · intro h
    simp [relayUpstream, h]
  · intro h
    cases hp : parseJsonStr up.body with
    | none => simp [relayUpstream, h, hp]
    | some j => simp [relayUpstream, h, hp]

/-- Witness for C7 amended: a failing upstream response is relayed
verbatim. -/
theorem C7_relay_amended_witness :
    relayUpstream ⟨502, "bad gateway"⟩ = (502, "bad gateway") :=
  (C7_relay_amended ⟨502, "bad gateway"⟩).1 (by decide)

/-- Payload with every field but cities, for the C8 counterexample. -/
def bodyMissingCities : Json :=
  Json.obj [("email", Json.str "a@b.com"), ("timezone", Json.str "UTC"),
            ("preferred_time", Json.str "09:00"), ("units", Json.str "metric")]

/-- Status of a direct reply (0 for a forward). -/
def replyStatus : ProxyStep → Nat
  | ProxyStep.reply s _ => s
  | ProxyStep.forward _ => 0

/-- C8 counterexample: with the server secrets unset, a payload lacking
cities gets status 500 naming SUPABASE_URL — the env check runs before
field validation, so the claimed unconditional 400 does not happen. -/
theorem C8_proxy_counterexample :
    proxyRoute ⟨none, none, none⟩ bodyMissingCities =
      ProxyStep.reply 500 (errJson "Missing SUPABASE_URL env var") ∧
    replyStatus (proxyRoute ⟨none, none, none⟩ bodyMissingCities) ≠ 400 :=
  ⟨rfl, by decide⟩

/-- C8 amended: the env checks run first, so a 500 naming the first
missing variable is returned whenever a secret is unset, whatever the
payload; provided all three secrets are configured, a payload lacking a
non-empty email, timezone, preferred_time or units, or whose cities is not
an array, gets status 400 with the JSON error body. All these are direct
replies: the upstream service is never contacted. -/
theorem C8_proxy_validation : ∀ (env : Env) (body : Json),
    (falsyEnv env.supabaseUrl = true →
      proxyRoute env body =
        ProxyStep.reply 500 (errJson "Missing SUPABASE_URL env var")) ∧
    (falsyEnv env.supabaseUrl = false → falsyEnv env.adminSecret = true →
      proxyRoute env body =
        ProxyStep.reply 500 (errJson "Missing ADMIN_SECRET env var")) ∧
    (falsyEnv env.supabaseUrl = false → falsyEnv env.adminSecret = false →
      falsyEnv env.serviceRole = true →
      proxyRoute env body =
        ProxyStep.reply 500 (errJson "Missing SUPABASE_SERVICE_ROLE_KEY env var")) ∧
    (envOK env = true →
      (jsTruthy (jsGet (jsBodyObj body) "email") = false ∨
       jsTruthy (jsGet (jsBodyObj body) "timezone") = false ∨
       jsTruthy (jsGet (jsBodyObj body) "preferred_time") = false ∨
       jsTruthy (jsGet (jsBodyObj body) "units") = false ∨
       jsIsArray (jsGet (jsBodyObj body) "cities") = false) →
      proxyRoute env body = ProxyStep.reply 400 (errJson "Missing required fields")) := by
  intro env body
  refine ⟨?_, ?_, ?_, ?_⟩
  · intro h
    simp [proxyRoute, h]
  · intro h1 h2
    simp [proxyRoute, h1, h2]
  · intro h1 h2 h3
    simp [proxyRoute, h1, h2, h3]
  · intro henv hbad
    simp only [envOK, Bool.and_eq_true, Bool.not_eq_true'] at henv
    obtain ⟨⟨h1, h2⟩, h3⟩ := henv
    have hcond : (!jsTruthy (jsGet (jsBodyObj body) "email") ||
        !jsTruthy (jsGet (jsBodyObj body) "timezone") ||
        !jsTruthy (jsGet (jsBodyObj body) "preferred_time") ||
        !jsTruthy (jsGet (jsBodyObj body) "units") ||
        !jsIsArray (jsGet (jsBodyObj body) "cities")) = true := by
      rcases hbad with h | h | h | h | h <;> simp [h]
    simp [proxyRoute, h1, h2, h3, hcond]

/-- Environment with all three secrets configured, used in witnesses. -/
def envEx : Env :=
  ⟨some "https://sb.example", some " admin ", some "svcrole"⟩

/-- Witness for C8 amended: with the secrets configured, an empty object
payload is rejected with 400. -/
theorem C8_proxy_validation_witness :
    proxyRoute envEx (Json.obj []) =
      ProxyStep.reply 400 (errJson "Missing required fields") :=
  (C8_proxy_validation envEx (Json.obj [])).2.2.2 (by decide) (Or.inl (by decide))

/-- Payload passing validation but carrying an extra field, for the C9
counterexample. -/
def payloadExtra : Json :=
  Json.obj [("email", Json.str "a@b.com"), ("timezone", Json.str "UTC"),
            ("preferred_time", Json.str "09:00"), ("units", Json.str "metric"),
            ("cities", Json.arr [Json.str "London"]), ("extra", Json.num 42)]

/-- The request the proxy builds for payloadExtra under envEx. -/
def forwardEx : ForwardRequest :=
  { url := "https://sb.example/functions/v1/upsert-subscriber",
    authorization := "Bearer svcrole",
    apikey := "svcrole",
    adminSecretHeader := "admin",
    bodyJson := Json.obj
      [("email", Json.str "a@b.com"), ("timezone", Json.str "UTC"),
       ("preferred_time", Json.str "09:00"), ("units", Json.str "metric"),
       ("cities", Json.arr [Json.str "London"])] }

/-- Number of fields of a JSON object (0 otherwise). -/
def objSize : Json → Nat
  | Json.obj fields => fields.length
  | _ => 0

/-- C9 counterexample: a validated payload carrying an unknown extra field
is not forwarded as-is — the re-built body drops the extra field, so the
forwarded JSON differs from the received payload. -/
theorem C9_forward_counterexample :
    proxyRoute envEx payloadExtra = ProxyStep.forward forwardEx ∧
    forwardEx.bodyJson ≠ payloadExtra :=
  ⟨rfl, fun h => absurd (congrArg objSize h) (by decide)⟩

/-- Fields of a JSON object (empty otherwise). -/
def objFields : Json → List (String × Json)
  | Json.obj fields => fields
  | _ => []

/-- C9 amended: for every payload that passes validation, the body the
proxy forwards is an object holding exactly the recognized fields (email,
timezone, preferred_time, units, cities, and is_active when present), each
bound to the value the received payload gives that key (last duplicate
wins, as in JS); keys outside the recognized six are dropped, and the keys
appear in the handler's fixed order. -/
theorem C9_forward_known_fields : ∀ (env : Env) (body : Json) (fr : ForwardRequest),
    proxyRoute env body = ProxyStep.forward fr →
    ∃ fields, fr.bodyJson = Json.obj fields ∧
      (∀ k v, (k, v) ∈ fields ↔
        (k ∈ knownKeys ∧ jsGet (jsBodyObj body) k = some v)) ∧
      fields.map Prod.fst =
        knownKeys.filter (fun k => (jsGet (jsBodyObj body) k).isSome) := by
  intro env body fr h
  refine ⟨forwardFields (jsBodyObj body), proxyRoute_forward_inv h, ?_, ?_⟩
  · intro k v
    exact filterMap_mem (jsBodyObj body) knownKeys k v
  · exact filterMap_keys (jsBodyObj body) knownKeys

/-- Witness for C9 amended at the concrete forward of payloadExtra: the
extra key is absent from the forwarded fields. -/
theorem C9_forward_known_fields_witness :
    ∃ fields, forwardEx.bodyJson = Json.obj fields ∧
      (∀ k v, (k, v) ∈ fields ↔
        (k ∈ knownKeys ∧ jsGet (jsBodyObj payloadExtra) k = some v)) ∧
      fields.map Prod.fst =
        knownKeys.filter (fun k => (jsGet (jsBodyObj payloadExtra) k).isSome) :=
  C9_forward_known_fields envEx payloadExtra forwardEx rfl

/-- C10: a payload whose cities field is an array — empty included — with
the other four fields non-empty passes the proxy's validation and is
forwarded upstream with that same cities array; no minimum length is ever
imposed on cities. -/
theorem C10_empty_cities_forwarded : ∀ (env : Env) (body : Json) (cs : List Json),
    envOK env = true →
    jsTruthy (jsGet (jsBodyObj body) "email") = true →
    jsTruthy (jsGet (jsBodyObj body) "timezone") = true →
    jsTruthy (jsGet (jsBodyObj body) "preferred_time") = true →
    jsTruthy (jsGet (jsBodyObj body) "units") = true →
    jsGet (jsBodyObj body) "cities" = some (Json.arr cs) →
    ∃ fr, proxyRoute env body = ProxyStep.forward fr ∧
      ("cities", Json.arr cs) ∈ objFields fr.bodyJson := by
  intro env body cs henv he ht hp hu hc
  simp only [envOK, Bool.and_eq_true, Bool.not_eq_true'] at henv
  obtain ⟨⟨h1, h2⟩, h3⟩ := henv
  have hcond : (!jsTruthy (jsGet (jsBodyObj body) "email") ||
      !jsTruthy (jsGet (jsBodyObj body) "timezone") ||
      !jsTruthy (jsGet (jsBodyObj body) "preferred_time") ||
      !jsTruthy (jsGet (jsBodyObj body) "units") ||
      !jsIsArray (jsGet (jsBodyObj body) "cities")) = false := by
    simp [he, ht, hp, hu, hc, jsIsArray]
  refine ⟨{ url := (env.supabaseUrl.getD "") ++ "/functions/v1/upsert-subscriber",
            authorization := "Bearer " ++ (env.serviceRole.getD ""),
            apikey := env.serviceRole.getD "",
            adminSecretHeader := jsTrim (env.adminSecret.getD ""),
            bodyJson := Json.obj (forwardFields (jsBodyObj body)) }, ?_, ?_⟩
  · simp [proxyRoute, h1, h2, h3, hcond]
  · show ("cities", Json.arr cs) ∈ objFields (Json.obj (forwardFields (jsBodyObj body)))
    unfold objFields
    exact (filterMap_mem (jsBodyObj body) knownKeys "cities" (Json.arr cs)).2
      ⟨by simp [knownKeys], hc⟩

/-- Payload with an empty cities array used for the C10 witness. -/
def payloadEmptyCities : Json :=
  Json.obj [("email", Json.str "a@b.com"), ("timezone", Json.str "UTC"),
            ("preferred_time", Json.str "09:00"), ("units", Json.str "metric"),
            ("cities", Json.arr [])]

/-- Witness for C10: the empty cities array is accepted and forwarded. -/
theorem C10_empty_cities_forwarded_witness :
    ∃ fr, proxyRoute envEx payloadEmptyCities = ProxyStep.forward fr ∧
      ("cities", Json.arr []) ∈ objFields fr.bodyJson :=
  C10_empty_cities_forwarded envEx payloadEmptyCities []
    (by decide) (by decide) (by decide) (by decide) (by decide) rfl
